import Mathlib

/-!
Verification of `backwardn/beadmachine` (`main.go`) against its
natural-language specification.  Go functions are shallowly embedded as
Lean definitions: machine integers become `ℕ`/`ℤ` with explicit `% 256`
where Go truncates, the exact `float64` arithmetic of
`calculateBeadBoardsNeeded` is modelled over `ℚ` (exact for every
realistic image dimension), Go maps become association lists read
through a lookup function, and the sequential bodies of `process` and
`calculateBeadUsage` become trace-producing functions.
-/

namespace BeadMachine

/-- Embedding of `calculateBeadBoardsNeeded` (main.go:289-293):
`neededFloat := float64(dimension) / 29; neededFloat = math.Floor(neededFloat + .5);
return int(neededFloat)`.  The `float64` arithmetic is modelled exactly over `ℚ`;
`int(...)` of the already-integral floor value is the identity. -/
def calculateBeadBoardsNeeded (dimension : ℤ) : ℤ :=
  ⌊(dimension : ℚ) / 29 + 1 / 2⌋

/-- Embedding of Go `image.Rectangle` (`Min.X`, `Min.Y`, `Max.X`, `Max.Y`). -/
structure Rect where
  minX : ℤ
  minY : ℤ
  maxX : ℤ
  maxY : ℤ
deriving DecidableEq

/-- Go `Rectangle.Dx()` is `Max.X - Min.X`. -/
def Rect.dx (r : Rect) : ℤ := r.maxX - r.minX

/-- Go `Rectangle.Dy()` is `Max.Y - Min.Y`. -/
def Rect.dy (r : Rect) : ℤ := r.maxY - r.minY

/-- Coordinate `(x, y)` lies inside the rectangle (Go `Point.In`:
`Min.X <= x < Max.X` and `Min.Y <= y < Max.Y`). -/
def Rect.contains (r : Rect) (x y : ℤ) : Prop :=
  r.minX ≤ x ∧ x < r.maxX ∧ r.minY ≤ y ∧ y < r.maxY

instance (r : Rect) (x y : ℤ) : Decidable (r.contains x y) := by
  unfold Rect.contains
  infer_instance

/-- Embedding of main.go:213-217: `beadModeImageBounds := imageBounds;
if m.beadStyle { beadModeImageBounds.Max.X *= 8; beadModeImageBounds.Max.Y *= 8 }`.
The literal factor 8 is the only enlargement the code can perform; it is a
constant of this function, not a field of `beadMachine`. -/
def beadModeBounds (beadStyle : Bool) (r : Rect) : Rect :=
  if beadStyle then { r with maxX := r.maxX * 8, maxY := r.maxY * 8 } else r

/-- An 8-bit RGBA pixel, the model of Go `color.RGBA` (and of the pixels of
the `*image.RGBA` buffer allocated by `image.NewRGBA`). -/
structure RGBAPixel where
  r : ℕ
  g : ℕ
  b : ℕ
  a : ℕ
deriving DecidableEq

/-- The 16-bit-per-channel quadruple returned by a Go `color.Color.RGBA()`
call (values in `0 .. 0xffff`, alpha-premultiplied). -/
structure Color16 where
  r : ℕ
  g : ℕ
  b : ℕ
  a : ℕ
deriving DecidableEq

/-- Go `color.RGBA.RGBA()`: each 8-bit channel `c` is widened to
`c | c << 8 = c * 0x101 = c * 257`. -/
def rgbaColor16 (c : RGBAPixel) : Color16 :=
  ⟨c.r * 257, c.g * 257, c.b * 257, c.a * 257⟩

/-- Go `uint8(n)` conversion: truncation modulo 256. -/
def uint8cast (n : ℕ) : ℕ := n % 256

/-- The zero value filling a freshly allocated `image.NewRGBA` buffer:
transparent black. -/
def zeroRGBA : RGBAPixel := ⟨0, 0, 0, 0⟩

/-- Pixel contents of a freshly allocated output image. -/
def newRGBA : ℤ → ℤ → RGBAPixel := fun _ _ => zeroRGBA

/-- `outputImage.SetRGBA(x, y, c)`, modelled as a pointwise update of the
pixel-content function (the theorems only ever write inside the allocated
bounds, where Go's bounds check passes). -/
def setRGBA (img : ℤ → ℤ → RGBAPixel) (x y : ℤ) (c : RGBAPixel) :
    ℤ → ℤ → RGBAPixel :=
  fun x0 y0 => if x0 = x ∧ y0 = y then c else img x0 y0

/-- The pixel written by main.go:229-232: `r, g, b, _ := pixelColor.RGBA();
color.RGBA{uint8(r), uint8(g), uint8(b), 255}`. -/
def copiedPixel (p : Color16) : RGBAPixel :=
  ⟨uint8cast p.r, uint8cast p.g, uint8cast p.b, 255⟩

/-- The list `lo, lo+1, ..., hi-1` traversed by a Go
`for v := lo; v < hi; v++` loop. -/
def intRange (lo hi : ℤ) : List ℤ :=
  (List.range (hi - lo).toNat).map (fun (i : ℕ) => lo + (i : ℤ))

/-- The inner `for x` loop of main.go:228-233 over one row `y`. -/
def noColorMatchingRow (input : ℤ → ℤ → Color16) (y : ℤ) (xs : List ℤ)
    (img : ℤ → ℤ → RGBAPixel) : ℤ → ℤ → RGBAPixel :=
  xs.foldl (fun acc x => setRGBA acc x y (copiedPixel (input x y))) img

/-- Embedding of the `noColorMatching` branch of `process`
(main.go:226-234): starting from the freshly allocated output, every
coordinate of `imageBounds` receives the copied pixel. -/
def noColorMatchingOutput (bounds : Rect) (input : ℤ → ℤ → Color16) :
    ℤ → ℤ → RGBAPixel :=
  (intRange bounds.minY bounds.maxY).foldl
    (fun acc y => noColorMatchingRow input y (intRange bounds.minX bounds.maxX) acc)
    newRGBA

/-- The externally visible steps of `process` (main.go:175-253), in
program order. -/
inductive ProcessAction where
  | readImage
  | applyFilters
  | resizeImage
  | allocOutput
  | copyVerbatim
  | matchPixels
  | createFile
  | encodePNG
deriving DecidableEq

/-- Embedding of the control flow of `process` (main.go:175-253) as the
trace of steps actually executed.  `readOk` is whether `readImageFile`
succeeds, `procOk` whether `m.processImage` succeeds, `createOk` whether
`os.Create` succeeds, `ncm` is `m.noColorMatching` and `resized` whether a
resize was requested.  Each `return` in the Go body truncates the trace. -/
def processActions (readOk procOk createOk ncm resized : Bool) :
    List ProcessAction :=
  if !readOk then [.readImage]
  else
    [.readImage, .applyFilters]
      ++ (if resized then [.resizeImage] else [])
      ++ [.allocOutput]
      ++ (if ncm then
            [.copyVerbatim]
              ++ (if createOk then [.createFile, .encodePNG] else [.createFile])
          else if procOk then
            [.matchPixels]
              ++ (if createOk then [.createFile, .encodePNG] else [.createFile])
          else [.matchPixels])

/-- The RGB working spaces offered by `go-chromath` that matter here. -/
inductive RGBSpace where
  | sRGB
  | adobeRGB
deriving DecidableEq

/-- Chromatic-adaptation methods offered by `go-chromath`. -/
inductive ChromaticAdaptation where
  | bradford
  | vonKries
deriving DecidableEq

/-- Reference illuminants offered by `go-chromath`. -/
inductive Illuminant where
  | d50
  | d65
deriving DecidableEq

/-- Channel scalers offered by `go-chromath`. -/
inductive Scaler where
  | scaler8bClamping
  | scalerNone
deriving DecidableEq

/-- Model of `chromath.LabTransformer`: it is constructed from (and keeps)
one reference illuminant. -/
structure LabTransformer where
  refIlluminant : Illuminant
deriving DecidableEq

/-- Model of `chromath.RGBTransformer`: working space, adaptation method,
reference illuminant, scaler and gamma, as passed to the constructor. -/
structure RGBTransformer where
  space : RGBSpace
  adaptation : ChromaticAdaptation
  refIlluminant : Illuminant
  scaler : Scaler
  gamma : ℚ
deriving DecidableEq

/-- `chromath.NewLabTransformer` keeps the illuminant it is given. -/
def newLabTransformer (ill : Illuminant) : LabTransformer := ⟨ill⟩

/-- `chromath.NewRGBTransformer` keeps the configuration it is given
(the final `nil` lookup-table argument of the Go constructor carries no
configuration and is omitted). -/
def newRGBTransformer (sp : RGBSpace) (ad : ChromaticAdaptation)
    (ill : Illuminant) (sc : Scaler) (gamma : ℚ) : RGBTransformer :=
  ⟨sp, ad, ill, sc, gamma⟩

/-- Embedding of main.go:145: `chromath.NewLabTransformer(&chromath.IlluminantRefD50)`. -/
def machineLabTransformer : LabTransformer :=
  newLabTransformer .d50

/-- Embedding of main.go:146: `chromath.NewRGBTransformer(&chromath.SpaceSRGB,
&chromath.AdaptationBradford, &chromath.IlluminantRefD50,
&chromath.Scaler8bClamping, 1.0, nil)`. -/
def machineRGBTransformer : RGBTransformer :=
  newRGBTransformer .sRGB .bradford .d50 .scaler8bClamping 1

/-- Lookup in a Go map whose key type is `color.Color` (main.go:32,34:
`colorMatchCache map[color.Color]string`, `rgbLabCache map[color.Color]chromath.Lab`).
Go map indexing compares interface keys by their complete dynamic value,
so for `color.RGBA` keys equality is equality of all four channels. -/
def cacheLookup {α : Type} (cache : List (RGBAPixel × α)) (key : RGBAPixel) :
    Option α :=
  (cache.find? (fun e => decide (e.1 = key))).map (fun e => e.2)

/-- Storing `cache[key] = v` in such a Go map (new binding shadows any
older one for the same key). -/
def cacheInsert {α : Type} (cache : List (RGBAPixel × α)) (key : RGBAPixel)
    (v : α) : List (RGBAPixel × α) :=
  (key, v) :: cache

/-- Embedding of `colorUsageCounts[beadName]++` on a Go `map[string]int`
(main.go:278): a missing key reads as 0, so the entry is created with
count 1; an existing entry is incremented in place. -/
def bumpCount : List (String × ℕ) → String → List (String × ℕ)
  | [], name => [(name, 1)]
  | (k, c) :: rest, name =>
      if k = name then (k, c + 1) :: rest else (k, c) :: bumpCount rest name

/-- The frequency table built by the `for beadName := range beadUsageChan`
loop of `calculateBeadUsage` (main.go:275-279), applied to the complete
sequence of events delivered before the channel was closed. -/
def calculateBeadUsageTable (events : List String) : List (String × ℕ) :=
  events.foldl bumpCount []

/-- Reading `colorUsageCounts[name]` together with its presence bit:
the Go table maps `name` to a count iff an entry exists. -/
def lookupCount (tbl : List (String × ℕ)) (name : String) : Option ℕ :=
  (tbl.find? (fun e => decide (e.1 = name))).map (fun e => e.2)

/-- The observable events of `calculateBeadUsage` (main.go:274-286). -/
inductive UsageAction where
  | consume (name : String)
  | reportCount (n : ℕ)
  | reportColor (name : String) (count : ℕ)
  | signalDone
deriving DecidableEq

/-- Whether a `UsageAction` is the consumption of a stream event. -/
def isConsume : UsageAction → Bool
  | .consume _ => true
  | _ => false

/-- Embedding of the body of `calculateBeadUsage` (main.go:274-286) as its
event trace.  `for beadName := range beadUsageChan` consumes every event
and terminates only once the channel is closed, so with `events` the full
stream contents the trace is: all consumptions, then the distinct-color
count report, then one report per table entry, then the send on
`beadStatsDone`. -/
def calculateBeadUsageTrace (events : List String) : List UsageAction :=
  events.map UsageAction.consume
    ++ UsageAction.reportCount (calculateBeadUsageTable events).length
      :: ((calculateBeadUsageTable events).map
            (fun p => UsageAction.reportColor p.1 p.2)
    ++ [UsageAction.signalDone])

/-- The resize-relevant configuration of `beadMachine` (main.go:47-51). -/
structure ResizeConfig where
  width : ℤ
  height : ℤ
  boardsWidth : ℤ
  boardsHeight : ℤ
  boardDimension : ℤ
deriving DecidableEq

/-- main.go:189-193: `newWidth := m.width; if m.boardsWidth > 0
{ newWidth = m.boardsWidth * m.boardDimension }`. -/
def configNewWidth (m : ResizeConfig) : ℤ :=
  if m.boardsWidth > 0 then m.boardsWidth * m.boardDimension else m.width

/-- main.go:195-198: `newHeight := m.height; if m.boardsHeight > 0
{ newHeight = m.boardsHeight * m.boardDimension }`. -/
def configNewHeight (m : ResizeConfig) : ℤ :=
  if m.boardsHeight > 0 then m.boardsHeight * m.boardDimension else m.height

/-- `imageBounds.Dx()` after the conditional resize of main.go:199-204.
`imaging.Resize` returns an image of exactly `newWidth` columns when
`newWidth > 0`; `aspectDx` abstracts the aspect-preserving width it
computes when only the height was specified; with no resize request the
input width is kept. -/
def finalWidth (m : ResizeConfig) (inputDx aspectDx : ℤ) : ℤ :=
  if configNewWidth m > 0 ∨ configNewHeight m > 0 then
    (if configNewWidth m > 0 then configNewWidth m else aspectDx)
  else inputDx

/-- The board count logged at main.go:206-208 for the width axis:
`calculateBeadBoardsNeeded(imageBounds.Dx())` on the post-resize bounds. -/
def reportedWidthBoards (m : ResizeConfig) (inputDx aspectDx : ℤ) : ℤ :=
  calculateBeadBoardsNeeded (finalWidth m inputDx aspectDx)

/-! ## Helper lemmas -/

/-- Closed form of the rounding: for a nonnegative dimension `d`,
`floor(d/29 + 1/2)` is the natural-number division `(d + 14) / 29`. -/
lemma calculateBeadBoardsNeeded_eq (d : ℕ) :
    calculateBeadBoardsNeeded (d : ℤ) = (((d + 14) / 29 : ℕ) : ℤ) := by
  unfold calculateBeadBoardsNeeded
  have hrw : ((d : ℤ) : ℚ) / 29 + 1 / 2 = ((2 * d + 29 : ℤ) : ℚ) / ((58 : ℕ) : ℚ) := by
    push_cast
    ring
  rw [hrw, Rat.floor_intCast_div_natCast]
  omega

lemma mem_intRange (lo hi a : ℤ) : a ∈ intRange lo hi ↔ lo ≤ a ∧ a < hi := by
  simp only [intRange, List.mem_map, List.mem_range]
  constructor
  · rintro ⟨i, hlt, rfl⟩
    omega
  · intro h
    exact ⟨(a - lo).toNat, by omega, by omega⟩

lemma noColorMatchingRow_apply (input : ℤ → ℤ → Color16) (y : ℤ) (xs : List ℤ)
    (img : ℤ → ℤ → RGBAPixel) (x0 y0 : ℤ) :
    noColorMatchingRow input y xs img x0 y0 =
      if y0 = y ∧ x0 ∈ xs then copiedPixel (input x0 y0) else img x0 y0 := by
  induction xs generalizing img with
  | nil => simp [noColorMatchingRow]
  | cons x t ih =>
    show noColorMatchingRow input y t (setRGBA img x y (copiedPixel (input x y))) x0 y0 = _
    rw [ih]
    by_cases hy : y0 = y
    · subst hy
      by_cases hx : x0 = x
      · subst hx
        by_cases hmem : x0 ∈ t <;> simp [hmem, setRGBA]
      · by_cases hmem : x0 ∈ t <;> simp [hmem, hx, setRGBA]
    · simp [hy, setRGBA]

lemma noColorMatchingFold_apply (input : ℤ → ℤ → Color16) (xs ys : List ℤ)
    (img : ℤ → ℤ → RGBAPixel) (x0 y0 : ℤ) :
    (ys.foldl (fun acc y => noColorMatchingRow input y xs acc) img) x0 y0 =
      if y0 ∈ ys ∧ x0 ∈ xs then copiedPixel (input x0 y0) else img x0 y0 := by
  induction ys generalizing img with
  | nil => simp
  | cons y t ih =>
    show (t.foldl (fun acc y => noColorMatchingRow input y xs acc)
        (noColorMatchingRow input y xs img)) x0 y0 = _
    rw [ih, noColorMatchingRow_apply]
    by_cases hmemt : y0 ∈ t
    · by_cases hx : x0 ∈ xs <;> simp [hmemt, hx]
    · by_cases hy : y0 = y <;> by_cases hx : x0 ∈ xs <;> simp [hmemt, hy, hx]

lemma noColorMatchingOutput_apply (bounds : Rect) (input : ℤ → ℤ → Color16)
    (x0 y0 : ℤ) :
    noColorMatchingOutput bounds input x0 y0 =
      if bounds.contains x0 y0 then copiedPixel (input x0 y0) else zeroRGBA := by
  unfold noColorMatchingOutput
  rw [noColorMatchingFold_apply]
  simp only [mem_intRange, Rect.contains, newRGBA]
  by_cases h : bounds.minX ≤ x0 ∧ x0 < bounds.maxX ∧ bounds.minY ≤ y0 ∧ y0 < bounds.maxY
  · rw [if_pos ⟨⟨h.2.2.1, h.2.2.2⟩, h.1, h.2.1⟩, if_pos h]
  · rw [if_neg (by tauto), if_neg h]

lemma lookupCount_bumpCount (tbl : List (String × ℕ)) (n m : String) :
    lookupCount (bumpCount tbl n) m =
      if m = n then some ((lookupCount tbl m).getD 0 + 1) else lookupCount tbl m := by
  induction tbl with
  | nil =>
    by_cases h : m = n
    · subst h
      simp [bumpCount, lookupCount]
    · simp [bumpCount, lookupCount, h, Ne.symm h]
  | cons e rest ih =>
    obtain ⟨k, c⟩ := e
    by_cases hk : k = n
    · subst hk
      by_cases hm : m = k
      · subst hm
        simp [bumpCount, lookupCount]
      · simp [bumpCount, lookupCount, hm, Ne.symm hm]
    · by_cases hm : m = k
      · subst hm
        simp [bumpCount, lookupCount, hk, Ne.symm hk]
      · have : lookupCount ((k, c) :: bumpCount rest n) m = lookupCount (bumpCount rest n) m := by
          simp [lookupCount, Ne.symm hm]
        simp only [bumpCount, if_neg hk, this, ih]
        have : lookupCount ((k, c) :: rest) m = lookupCount rest m := by
          simp [lookupCount, Ne.symm hm]
        rw [this]

lemma lookupCount_foldl (l : List String) (tbl : List (String × ℕ)) (m : String) :
    lookupCount (l.foldl bumpCount tbl) m =
      if (lookupCount tbl m).isSome ∨ m ∈ l then
        some ((lookupCount tbl m).getD 0 + l.count m)
      else none := by
  induction l generalizing tbl with
  | nil =>
    cases h : lookupCount tbl m <;> simp [h]
  | cons a t ih =>
    show lookupCount (t.foldl bumpCount (bumpCount tbl a)) m = _
    rw [ih, lookupCount_bumpCount]
    by_cases hm : m = a
    · cases h : lookupCount tbl m <;>
        simp [h, hm, List.count_cons, List.mem_cons, beq_iff_eq] <;> omega
    · cases h : lookupCount tbl m <;>
        simp [h, hm, List.count_cons, List.mem_cons, beq_iff_eq]

/-- The table lookup is fully determined by the multiset of events:
an entry exists iff the name occurs, and then holds its occurrence count. -/
lemma lookupCount_table (l : List String) (m : String) :
    lookupCount (calculateBeadUsageTable l) m =
      if l.count m = 0 then none else some (l.count m) := by
  unfold calculateBeadUsageTable
  rw [lookupCount_foldl]
  have hnil : lookupCount [] m = none := rfl
  by_cases hmem : m ∈ l
  · have : l.count m ≠ 0 := by
      simpa [List.count_eq_zero] using hmem
    simp [hnil, hmem, this]
  · have : l.count m = 0 := by
      simpa [List.count_eq_zero] using hmem
    simp [hnil, hmem, this]

lemma takeWhile_consume_append (es : List String) (rest : List UsageAction)
    (h : rest.takeWhile isConsume = []) :
    ((es.map UsageAction.consume) ++ rest).takeWhile isConsume
      = es.map UsageAction.consume := by
  induction es with
  | nil => simpa using h
  | cons a t ih => simpa [List.takeWhile_cons, isConsume] using ih

lemma dropWhile_consume_append (es : List String) (rest : List UsageAction)
    (h : rest.dropWhile isConsume = rest) :
    ((es.map UsageAction.consume) ++ rest).dropWhile isConsume = rest := by
  induction es with
  | nil => simpa using h
  | cons a t ih => simpa [List.dropWhile_cons, isConsume] using ih

/-! ## Claim theorems -/

/-- C2: `calculateBeadBoardsNeeded` rounds half up (`floor(d/29 + 0.5)`,
equivalently `(d + 14) / 29` in integer arithmetic) and is not ceiling
division: at `d = 1` it returns `0` while `ceil(1/29) = 1`. -/
theorem calculateBeadBoardsNeeded_round_half_up :
    (∀ d : ℕ, calculateBeadBoardsNeeded (d : ℤ) = (((d + 14) / 29 : ℕ) : ℤ)) ∧
    calculateBeadBoardsNeeded ((1 : ℕ) : ℤ) ≠ ((((1 : ℕ) + 29 - 1) / 29 : ℕ) : ℤ) := by
  refine ⟨calculateBeadBoardsNeeded_eq, ?_⟩
  rw [calculateBeadBoardsNeeded_eq 1]
  decide

/-- C1: with `noColorMatching` enabled, the matching step never runs (no
`matchPixels` action occurs in any `process` trace with `ncm = true`),
and every coordinate inside the input bounds receives the source pixel's
8-bit RGB channels verbatim with alpha forced to 255.  The source pixel
is an 8-bit color, i.e. its `RGBA()` quadruple is `channel * 0x101`
per channel; the code's `uint8(...)` truncation then restores exactly
the 8-bit channels. -/
theorem noColorMatching_copies_pixel (bounds : Rect) (input : ℤ → ℤ → Color16)
    (x y : ℤ) (src : RGBAPixel)
    (hin : bounds.contains x y)
    (hsrc : input x y = rgbaColor16 src)
    (hr : src.r < 256) (hg : src.g < 256) (hb : src.b < 256) :
    noColorMatchingOutput bounds input x y = ⟨src.r, src.g, src.b, 255⟩ ∧
    ∀ readOk procOk createOk resized : Bool,
      ProcessAction.matchPixels ∉ processActions readOk procOk createOk true resized := by
  constructor
  · rw [noColorMatchingOutput_apply, if_pos hin, hsrc]
    unfold rgbaColor16 copiedPixel uint8cast
    have er : src.r * 257 % 256 = src.r := by omega
    have eg : src.g * 257 % 256 = src.g := by omega
    have eb : src.b * 257 % 256 = src.b := by omega
    simp [er, eg, eb]
  · decide

/-- C1 witness: a concrete 2×2 image holding the 8-bit color (7, 8, 9, 10)
everywhere; the copy loop yields (7, 8, 9, 255) at (1, 1), and no
`matchPixels` action occurs in a concrete `noColorMatching` run. -/
theorem noColorMatching_copies_pixel_witness :
    noColorMatchingOutput ⟨0, 0, 2, 2⟩ (fun _ _ => rgbaColor16 ⟨7, 8, 9, 10⟩) 1 1
        = ⟨7, 8, 9, 255⟩ ∧
    ProcessAction.matchPixels ∉ processActions true true true true false := by
  have h := noColorMatching_copies_pixel ⟨0, 0, 2, 2⟩
    (fun _ _ => rgbaColor16 ⟨7, 8, 9, 10⟩) 1 1 ⟨7, 8, 9, 10⟩
    (by decide) rfl (by decide) (by decide) (by decide)
  exact ⟨h.1, h.2 true true true false⟩

/-- C6: with `beadStyle` enabled the allocated output bounds are the
input bounds enlarged by exactly 8 in each axis (for the zero-origin
bounds every image in this program has), and with `beadStyle` disabled
the bounds are unchanged.  The factor is the literal constant 8 of
`beadModeBounds`, taken from no configuration field. -/
theorem beadStyle_enlarges_by_factor_8 (r : Rect)
    (hx : r.minX = 0) (hy : r.minY = 0) :
    (beadModeBounds true r).dx = 8 * r.dx ∧
    (beadModeBounds true r).dy = 8 * r.dy ∧
    beadModeBounds false r = r := by
  refine ⟨?_, ?_, rfl⟩ <;>
    simp [beadModeBounds, Rect.dx, Rect.dy, hx, hy] <;> ring

/-- C6 witness: a 1×1 input at the origin yields 8×8 output bounds. -/
theorem beadStyle_enlarges_by_factor_8_witness :
    (beadModeBounds true ⟨0, 0, 1, 1⟩).dx = 8 ∧
    (beadModeBounds true ⟨0, 0, 1, 1⟩).dy = 8 := by
  have h := beadStyle_enlarges_by_factor_8 ⟨0, 0, 1, 1⟩ rfl rfl
  exact ⟨by simpa using h.1, by simpa using h.2.1⟩

/-- C7: whenever reading the input image fails, or color matching is
active and `processImage` fails, the `process` trace contains neither the
creation of the output file nor the PNG encode: the run returns before
`os.Create`, so no partial output reaches persistent storage. -/
theorem process_aborts_before_output (readOk procOk createOk ncm resized : Bool)
    (h : readOk = false ∨ (ncm = false ∧ procOk = false)) :
    ProcessAction.createFile ∉ processActions readOk procOk createOk ncm resized ∧
    ProcessAction.encodePNG ∉ processActions readOk procOk createOk ncm resized := by
  revert h
  revert readOk procOk createOk ncm resized
  decide

/-- C7 witness: with a failing `processImage` in matching mode, the
concrete trace has no file creation and no encode. -/
theorem process_aborts_before_output_witness :
    ProcessAction.createFile ∉ processActions true false true false false ∧
    ProcessAction.encodePNG ∉ processActions true false true false false :=
  process_aborts_before_output true false true false false (Or.inr ⟨rfl, rfl⟩)

/-- C8: the transformers built at main.go:145-146 carry exactly the fixed
configuration — sRGB working space, Bradford adaptation, the D50
reference illuminant (the same illuminant value in the RGB and the Lab
transformer) and 8-bit clamped scaling; being plain functions of this
fixed data, the resulting RGB-to-Lab conversion is deterministic in the
RGB triple. -/
theorem transformers_fixed_configuration :
    machineRGBTransformer.space = RGBSpace.sRGB ∧
    machineRGBTransformer.adaptation = ChromaticAdaptation.bradford ∧
    machineRGBTransformer.refIlluminant = Illuminant.d50 ∧
    machineRGBTransformer.scaler = Scaler.scaler8bClamping ∧
    machineLabTransformer.refIlluminant = machineRGBTransformer.refIlluminant := by
  refine ⟨rfl, rfl, rfl, rfl, rfl⟩

/-- C9: with `noColorMatching` and `beadStyle` both enabled, the output is
allocated with the 8×-enlarged bounds, but the copy loop writes only at
original input coordinates, so every allocated coordinate outside the
original bounds still holds the zero value — transparent black — rather
than part of a replicated 8×8 block. -/
theorem beadStyle_noColorMatching_leaves_outside_zero (bounds : Rect)
    (input : ℤ → ℤ → Color16) (x y : ℤ)
    (_hallocated : (beadModeBounds true bounds).contains x y)
    (houtside : ¬ bounds.contains x y) :
    noColorMatchingOutput bounds input x y = zeroRGBA := by
  rw [noColorMatchingOutput_apply, if_neg houtside]

/-- C9 witness: for a 1×1 input at the origin, coordinate (3, 0) lies in
the enlarged 8×8 allocation but outside the input bounds and is
transparent black in the output. -/
theorem beadStyle_noColorMatching_leaves_outside_zero_witness :
    noColorMatchingOutput ⟨0, 0, 1, 1⟩ (fun _ _ => rgbaColor16 ⟨7, 8, 9, 10⟩) 3 0
      = zeroRGBA :=
  beadStyle_noColorMatching_leaves_outside_zero ⟨0, 0, 1, 1⟩
    (fun _ _ => rgbaColor16 ⟨7, 8, 9, 10⟩) 3 0 (by decide) (by decide)

/-- C3 counterexample: with the declared cache type
`map[color.Color]string`, key equality is Go value equality of the whole
color.  The colors (1, 2, 3, 10) and (1, 2, 3, 20) share the RGB triple
yet, after caching the first under the name "white", looking up the first
hits that entry while looking up the second resolves to no entry at all —
not to the same entry, contradicting the claim. -/
theorem cache_key_alpha_counterexample :
    (RGBAPixel.mk 1 2 3 10).r = (RGBAPixel.mk 1 2 3 20).r ∧
    (RGBAPixel.mk 1 2 3 10).g = (RGBAPixel.mk 1 2 3 20).g ∧
    (RGBAPixel.mk 1 2 3 10).b = (RGBAPixel.mk 1 2 3 20).b ∧
    (RGBAPixel.mk 1 2 3 10).a ≠ (RGBAPixel.mk 1 2 3 20).a ∧
    cacheLookup (cacheInsert [] ⟨1, 2, 3, 10⟩ "white") ⟨1, 2, 3, 10⟩ = some "white" ∧
    cacheLookup (cacheInsert [] ⟨1, 2, 3, 10⟩ "white") ⟨1, 2, 3, 20⟩ = none := by
  refine ⟨rfl, rfl, rfl, by decide, rfl, rfl⟩

/-- C3 amended: cache keys of the match cache and the RGB-to-Lab cache
are complete color values; Go map equality on them includes the alpha
channel, so two colors with identical RGB but different alpha are
distinct keys — a lookup of one never resolves to an entry committed
under the other. -/
theorem cache_key_includes_alpha {α : Type} (r g b a1 a2 : ℕ) (v : α)
    (hne : a1 ≠ a2) :
    cacheLookup (cacheInsert [] ⟨r, g, b, a1⟩ v) ⟨r, g, b, a1⟩ = some v ∧
    cacheLookup (cacheInsert [] ⟨r, g, b, a1⟩ v) ⟨r, g, b, a2⟩ = none := by
  unfold cacheLookup cacheInsert
  constructor
  · simp
  · rw [List.find?_cons_of_neg]
    · rfl
    · simp [hne]

/-- C3 amended witness: the Lab-cache shape of the same phenomenon, with
a concrete numeric payload. -/
theorem cache_key_includes_alpha_witness :
    cacheLookup (cacheInsert [] ⟨200, 100, 50, 0⟩ (41 : ℕ)) ⟨200, 100, 50, 0⟩
        = some 41 ∧
    cacheLookup (cacheInsert [] ⟨200, 100, 50, 0⟩ (41 : ℕ)) ⟨200, 100, 50, 255⟩
        = none :=
  cache_key_includes_alpha 200 100 50 0 255 41 (by decide)

/-- C4: for any sequence of bead-name events folded by
`calculateBeadUsage`, the table maps each occurring name to exactly its
number of occurrences, a name that never occurs has no entry, and any
permutation of the events produces the same table (as a lookup map). -/
theorem calculateBeadUsage_counts (l l2 : List String) (name : String)
    (hperm : List.Perm l l2) :
    lookupCount (calculateBeadUsageTable l) name
        = (if l.count name = 0 then none else some (l.count name)) ∧
    (name ∉ l → lookupCount (calculateBeadUsageTable l) name = none) ∧
    lookupCount (calculateBeadUsageTable l) name
        = lookupCount (calculateBeadUsageTable l2) name := by
  refine ⟨lookupCount_table l name, ?_, ?_⟩
  · intro habs
    rw [lookupCount_table]
    simp [List.count_eq_zero.mpr habs]
  · rw [lookupCount_table, lookupCount_table, hperm.count_eq]

/-- C4 witness: three events, two of them "red", in two different orders,
give the entry `red ↦ 2` both times; the name "green" never occurs and
has no entry. -/
theorem calculateBeadUsage_counts_witness :
    lookupCount (calculateBeadUsageTable ["red", "blue", "red"]) "red" = some 2 ∧
    lookupCount (calculateBeadUsageTable ["red", "blue", "red"]) "red"
        = lookupCount (calculateBeadUsageTable ["blue", "red", "red"]) "red" ∧
    lookupCount (calculateBeadUsageTable ["red", "blue", "red"]) "green" = none := by
  have h := calculateBeadUsage_counts ["red", "blue", "red"] ["blue", "red", "red"]
    "red" (List.Perm.swap "blue" "red" ["red"])
  have h2 := calculateBeadUsage_counts ["red", "blue", "red"] ["red", "blue", "red"]
    "green" (List.Perm.refl _)
  refine ⟨?_, h.2.2, h2.2.1 (by decide)⟩
  rw [h.1]
  rfl

/-- C5: the trace of `calculateBeadUsage` consumes the entire event
stream first — the consumed actions are exactly the stream's events, and
after the first non-consumption no consumption ever occurs — and the
completion signal on `beadStatsDone` is the final action, occurring
nowhere before the report is complete. -/
theorem calculateBeadUsage_reports_after_close (events : List String) :
    (calculateBeadUsageTrace events).takeWhile isConsume
        = events.map UsageAction.consume ∧
    (∀ a ∈ (calculateBeadUsageTrace events).dropWhile isConsume,
        isConsume a = false) ∧
    (calculateBeadUsageTrace events).getLast? = some UsageAction.signalDone ∧
    UsageAction.signalDone ∉ (calculateBeadUsageTrace events).dropLast := by
  have hconcat : calculateBeadUsageTrace events =
      (events.map UsageAction.consume
        ++ UsageAction.reportCount (calculateBeadUsageTable events).length
          :: (calculateBeadUsageTable events).map
              (fun p => UsageAction.reportColor p.1 p.2))
        ++ [UsageAction.signalDone] := by
    unfold calculateBeadUsageTrace
    simp
  refine ⟨?_, ?_, ?_, ?_⟩
  · exact takeWhile_consume_append _ _ (by simp [List.takeWhile_cons, isConsume])
  · intro a ha
    unfold calculateBeadUsageTrace at ha
    rw [dropWhile_consume_append _ _ (by simp [List.dropWhile_cons, isConsume])] at ha
    simp only [List.mem_cons, List.mem_append, List.mem_map, List.mem_singleton] at ha
    rcases ha with rfl | ⟨p, hp, rfl⟩ | rfl | h0
    · rfl
    · rfl
    · rfl
    · cases h0
  · rw [hconcat, List.getLast?_concat]
  · rw [hconcat, List.dropLast_concat]
    simp

/-- C10 counterexample: two runs on the same 10-pixel-wide input, both
requesting a one-board-wide resize and differing only in the
`boarddimension` flag (20 vs 100), report different numbers of boards
needed (1 vs 3): the board dimension does affect the reported count,
because board-based resizing changes the pixel dimension fed to
`calculateBeadBoardsNeeded`. -/
theorem boardDimension_affects_reported_boards :
    reportedWidthBoards ⟨0, 0, 1, 0, 20⟩ 10 10 = 1 ∧
    reportedWidthBoards ⟨0, 0, 1, 0, 100⟩ 10 10 = 3 ∧
    reportedWidthBoards ⟨0, 0, 1, 0, 20⟩ 10 10
      ≠ reportedWidthBoards ⟨0, 0, 1, 0, 100⟩ 10 10 := by
  have h20 : reportedWidthBoards ⟨0, 0, 1, 0, 20⟩ 10 10
      = calculateBeadBoardsNeeded ((20 : ℕ) : ℤ) := by
    norm_num [reportedWidthBoards, finalWidth, configNewWidth, configNewHeight]
  have h100 : reportedWidthBoards ⟨0, 0, 1, 0, 100⟩ 10 10
      = calculateBeadBoardsNeeded ((100 : ℕ) : ℤ) := by
    norm_num [reportedWidthBoards, finalWidth, configNewWidth, configNewHeight]
  rw [h20, h100, calculateBeadBoardsNeeded_eq, calculateBeadBoardsNeeded_eq]
  norm_num

/-- C10 amended: `calculateBeadBoardsNeeded` itself reads only its
dimension argument and the constant 29 — in particular, whenever no
board-based resize is requested (`boardswidth` and `boardsheight`
nonpositive), the reported board count is identical for any two values of
the `boarddimension` flag.  When board-based resizing is active, however,
`boarddimension` changes the resized pixel dimension and with it the
reported count. -/
theorem reported_boards_ignore_boardDimension_without_board_resize
    (w h bw bh d1 d2 inputDx aspectDx : ℤ)
    (hbw : bw ≤ 0) (hbh : bh ≤ 0) :
    reportedWidthBoards ⟨w, h, bw, bh, d1⟩ inputDx aspectDx
      = reportedWidthBoards ⟨w, h, bw, bh, d2⟩ inputDx aspectDx := by
  have hbw' : ¬ bw > 0 := by omega
  have hbh' : ¬ bh > 0 := by omega
  simp [reportedWidthBoards, finalWidth, configNewWidth, configNewHeight, hbw', hbh']

/-- C10 amended witness: with a plain pixel-width resize to 50 and no
board-based resize, changing `boarddimension` from 20 to 100 leaves the
reported board count unchanged. -/
theorem reported_boards_ignore_boardDimension_witness :
    reportedWidthBoards ⟨50, 0, 0, 0, 20⟩ 10 10
      = reportedWidthBoards ⟨50, 0, 0, 0, 100⟩ 10 10 :=
  reported_boards_ignore_boardDimension_without_board_resize
    50 0 0 0 20 100 10 10 (by norm_num) (by norm_num)

end BeadMachine
